import Mathlib

/-!
Verification of the LCC capture/playback engine specification against a
shallow embedding of the source.

The embedding translates the JavaScript source files into Lean:
* `src/unnamed/part_010` (`target-types.js`): coordinate conversion.
* `src/src/main/click-simulator.js`: mouse movement and click simulation,
  modelled as functions producing a trace of emitted host-injection events.
* `src/unnamed/part_008` (`macro-player.js` and `keyboard-handler.js`):
  macro playback and keystroke simulation.
* `src/src/main/macro-recorder.js` and `src/types/macro-types.js`:
  recording of input events into macro steps, and macro storage.

Conventions used throughout:
* JavaScript numbers holding pixel coordinates, counters and ids are
  modelled as `Int`/`Nat` (all claims concern integer inputs, where IEEE
  doubles are exact); speed multipliers are modelled as `ℚ`.
* `x || default` on a JavaScript number is modelled as
  `if x = 0 then default else x`, on a string as
  `if x = "" then default else x` (0, NaN and "" are the falsy values).
* Functions that `throw` are modelled with `Except`/`Bool` results;
  side-effecting robotjs calls become constructors of an event-trace type.
-/

/-! ## Coordinate mapper (`target-types.js`, `src/unnamed/part_010`) -/

/-- The `ScreenInfo` typedef: one display's rectangle in global coordinates. -/
structure ScreenInfo where
  id : Int
  x : Int
  y : Int
  width : Int
  height : Int
  isPrimary : Bool
  scaleFactor : Int
deriving Repr, DecidableEq

/-- The `Coordinates` typedef: a point relative to the origin of screen `screenId`. -/
structure Coordinates where
  x : Int
  y : Int
  screenId : Int
deriving Repr, DecidableEq

/-- Model of `createCoordinates(x, y, screenId)`.  `Math.round` is the identity on the
integer coordinates used throughout, so it does not appear. -/
def createCoordinates (x y screenId : Int) : Coordinates :=
  { x := x, y := y, screenId := screenId }

/-- The containment predicate from `globalToScreenCoordinates`:
`globalX >= screen.x && globalX < screen.x + screen.width && ...`. -/
def screenContains (s : ScreenInfo) (globalX globalY : Int) : Bool :=
  decide (s.x ≤ globalX) && decide (globalX < s.x + s.width) &&
  decide (s.y ≤ globalY) && decide (globalY < s.y + s.height)

/-- Model of `globalToScreenCoordinates(globalX, globalY, screens)`: first screen whose
rectangle contains the point, else `screens[0]`.  Accessing `screens[0]` of an
empty array would crash in the source; the model returns `none` there. -/
def globalToScreenCoordinates (globalX globalY : Int) (screens : List ScreenInfo) :
    Option Coordinates :=
  match (screens.find? (fun s => screenContains s globalX globalY)).orElse
      (fun _ => screens.head?) with
  | some screen => some (createCoordinates (globalX - screen.x) (globalY - screen.y) screen.id)
  | none => none

/-- Model of `screenToGlobalCoordinates(coords, screens)`: screen found by id, else
`screens[0]`; returns global `{x, y}`. -/
def screenToGlobalCoordinates (coords : Coordinates) (screens : List ScreenInfo) :
    Option (Int × Int) :=
  match (screens.find? (fun s => s.id == coords.screenId)).orElse
      (fun _ => screens.head?) with
  | some screen => some (coords.x + screen.x, coords.y + screen.y)
  | none => none

/-- Disjointness of two screen rectangles (the spec-side hypothesis under which
the round-trip law holds; not a function of the source). -/
def rectDisjoint (s t : ScreenInfo) : Bool :=
  decide (s.x + s.width ≤ t.x) || decide (t.x + t.width ≤ s.x) ||
  decide (s.y + s.height ≤ t.y) || decide (t.y + t.height ≤ s.y)

/-! ## Input simulator (`src/src/main/click-simulator.js`) -/

/-- One host-injection event emitted by the click simulator (robotjs calls and
`_sleep` waits, in emission order). -/
inductive SimEvent where
  | moveMouse (x y : Int)
  | sleep (ms : Nat)
  | mouseClick (button : String)
deriving Repr, DecidableEq

/-- JavaScript `Math.round` (round half towards positive infinity). -/
def jsRound (q : ℚ) : Int :=
  ⌊q + 1 / 2⌋

/-- Ceiling of the real square root of `n` (exact model of
`Math.ceil(Math.sqrt(n))` for the integer radicands that arise here). -/
def ceilSqrt (n : Nat) : Nat :=
  if Nat.sqrt n * Nat.sqrt n = n then Nat.sqrt n else Nat.sqrt n + 1

/-- Squared distance between two points, as a natural number
(`Math.pow(x - startX, 2) + Math.pow(y - startY, 2)`). -/
def distSq (startX startY x y : Int) : Nat :=
  ((x - startX) * (x - startX) + (y - startY) * (y - startY)).toNat

/-- Model of `Math.min(Math.ceil(distance / 10), 50)` expressed through the squared
distance: `Math.ceil(s / 10) = Math.ceil(Math.ceil(s) / 10)` for real `s`,
and `(c + 9) / 10` is that ceiling division on naturals. -/
def smoothStepCount (dsq : Nat) : Nat :=
  min ((ceilSqrt dsq + 9) / 10) 50

/-- The interpolated coordinate of waypoint `i` of `steps`:
`Math.round(start + (target - start) * (i / steps))`. -/
def interpCoord (start target : Int) (i steps : Nat) : Int :=
  jsRound ((start : ℚ) + ((target : ℚ) - (start : ℚ)) * ((i : ℚ) / (steps : ℚ)))

/-- The smooth-movement `for` loop of `moveMouse`: iterations `1 .. n` (of
`steps` total), each emitting one waypoint move followed by `_sleep(5)`. -/
def smoothMoveLoop (startX startY x y : Int) (steps : Nat) : Nat → List SimEvent
  | 0 => []
  | i + 1 => smoothMoveLoop startX startY x y steps i ++
      [SimEvent.moveMouse (interpCoord startX x (i + 1) steps) (interpCoord startY y (i + 1) steps),
       SimEvent.sleep 5]

/-- Model of `moveMouse(x, y, smooth)` starting from mouse position
`(startX, startY)` (the value `robot.getMousePos()` returns).  Distances under
20 move directly; otherwise the smooth loop runs and a final exact
`robot.moveMouse(x, y)` is emitted.  `distance < 20` is equivalent to
`distSq < 400` since both sides are nonnegative. -/
def moveMouse (startX startY x y : Int) (smooth : Bool) : List SimEvent :=
  if smooth then
    if distSq startX startY x y < 400 then [SimEvent.moveMouse x y]
    else
      let steps := smoothStepCount (distSq startX startY x y)
      smoothMoveLoop startX startY x y steps steps ++ [SimEvent.moveMouse x y]
  else [SimEvent.moveMouse x y]

/-- The `buttonMap` of `_performClick`: unknown buttons fall back to `'left'`. -/
def buttonMap (button : String) : String :=
  if button = "left" ∨ button = "right" ∨ button = "middle" then button else "left"

/-- Model of `_performClick(button)`: one `robot.mouseClick` at the current position. -/
def performClick (button : String) : SimEvent :=
  SimEvent.mouseClick (buttonMap button)

/-- The single/multiple-click `for` loop of `simulateClick`: `count` presses of
`clickType`, with `_sleep(30)` between successive presses (none after the
last). -/
def clickLoop (clickType : String) : Nat → List SimEvent
  | 0 => []
  | 1 => [performClick clickType]
  | n + 2 => performClick clickType :: SimEvent.sleep 30 :: clickLoop clickType (n + 1)

/-- The click phase of `simulateClick`: `'double'` is always exactly two left
clicks 30ms apart; every other type runs the click loop. -/
def clickEvents (clickType : String) (clickCount : Nat) : List SimEvent :=
  if clickType = "double" then
    [performClick "left", SimEvent.sleep 30, performClick "left"]
  else clickLoop clickType clickCount

/-- Model of `simulateClick(x, y, options)` from mouse position `(startX, startY)`:
resolves option defaults (`clickType || 'left'`, `clickCount || 1`), moves to
the target (smooth), waits 50ms, clicks, and optionally restores the original
position after a further 50ms. -/
def simulateClick (startX startY x y : Int) (clickTypeOpt : String) (clickCountOpt : Nat)
    (restorePosition : Bool) : List SimEvent :=
  let clickType := if clickTypeOpt = "" then "left" else clickTypeOpt
  let clickCount := if clickCountOpt = 0 then 1 else clickCountOpt
  moveMouse startX startY x y true ++ [SimEvent.sleep 50] ++
    clickEvents clickType clickCount ++
    (if restorePosition then SimEvent.sleep 50 :: moveMouse x y startX startY true else [])

/-- Recognizer for press events in a simulator trace. -/
def isPressEvent : SimEvent → Bool
  | SimEvent.mouseClick _ => true
  | _ => false

/-- Recognizer for move events in a simulator trace. -/
def isMoveEvent : SimEvent → Bool
  | SimEvent.moveMouse _ _ => true
  | _ => false

/-! ## Keyboard handler (`keyboard-handler.js`, `src/unnamed/part_008`) -/

/-- One robotjs keyboard call: `keyToggle(key, down ? 'down' : 'up')` or
`keyTap(key)`. -/
inductive KeyEvent where
  | keyToggle (key : String) (down : Bool)
  | keyTap (key : String)
deriving Repr, DecidableEq

/-- The special-key table of `_convertToRobotKey`. -/
def robotKeyMap : List (String × String) :=
  [("ArrowUp", "up"), ("ArrowDown", "down"), ("ArrowLeft", "left"),
   ("ArrowRight", "right"), ("Backspace", "backspace"), ("Tab", "tab"),
   ("Enter", "enter"), ("Return", "return"), ("CapsLock", "capslock"),
   ("Escape", "escape"), ("Space", "space"), ("PageUp", "pageup"),
   ("PageDown", "pagedown"), ("End", "end"), ("Home", "home"),
   ("Insert", "insert"), ("Delete", "delete"), ("Command", "command"),
   ("Control", "control"), ("Option", "alt"), ("Alt", "alt"),
   ("Shift", "shift"), ("Print", "printscreen"), ("ScrollLock", "scrolllock"),
   ("Pause", "pause")]

/-- Model of `_convertToRobotKey(key)`: special-key table, then `F1`–`F24`
(the `/^F(\d+)$/` test), then lowercasing of single characters, else the key
itself. -/
def convertToRobotKey (key : String) : String :=
  match (robotKeyMap.find? (fun p => p.1 = key)).map Prod.snd with
  | some mapped => mapped
  | none =>
    let digits := key.drop 1
    if key.startsWith "F" ∧ digits ≠ "" ∧ digits.all Char.isDigit then
      match digits.toNat? with
      | some num => if 1 ≤ num ∧ num ≤ 24 then "f" ++ toString num else key
      | none => key
    else if key.length = 1 then key.toLower
    else key

/-- Runs a planned sequence of keyboard calls against a failure oracle.
`failAt k` says whether the `k`-th robotjs call of this keystroke raises.
Returns the next call counter, the events actually performed, and whether the
whole sequence completed; a raising call performs nothing and aborts the
sequence. -/
def runKeyOps (failAt : Nat → Bool) : Nat → List KeyEvent → Nat × List KeyEvent × Bool
  | k, [] => (k, [], true)
  | k, op :: ops =>
    if failAt k then (k + 1, [], false)
    else
      let rest := runKeyOps failAt (k + 1) ops
      (rest.1, op :: rest.2.1, rest.2.2)

/-- The modifier-down calls of `simulateKeystroke`, in source order:
shift, control, alt, meta (`command`). -/
def modDownOps (shift control alt meta : Bool) : List KeyEvent :=
  (if shift then [KeyEvent.keyToggle "shift" true] else []) ++
  (if control then [KeyEvent.keyToggle "control" true] else []) ++
  (if alt then [KeyEvent.keyToggle "alt" true] else []) ++
  (if meta then [KeyEvent.keyToggle "command" true] else [])

/-- The modifier-up calls of `simulateKeystroke`, in source order:
meta (`command`), alt, control, shift. -/
def modUpOps (shift control alt meta : Bool) : List KeyEvent :=
  (if meta then [KeyEvent.keyToggle "command" false] else []) ++
  (if alt then [KeyEvent.keyToggle "alt" false] else []) ++
  (if control then [KeyEvent.keyToggle "control" false] else []) ++
  (if shift then [KeyEvent.keyToggle "shift" false] else [])

/-- The whole planned call sequence of a successful `simulateKeystroke`. -/
def keystrokeMainOps (key : String) (shift control alt meta : Bool) : List KeyEvent :=
  modDownOps shift control alt meta ++ [KeyEvent.keyTap (convertToRobotKey key)] ++
    modUpOps shift control alt meta

/-- The `catch`-block cleanup of `simulateKeystroke`: force all four modifiers
up (shift, control, alt, command), inside an inner `try` that swallows errors. -/
def keystrokeCleanupOps : List KeyEvent :=
  [KeyEvent.keyToggle "shift" false, KeyEvent.keyToggle "control" false,
   KeyEvent.keyToggle "alt" false, KeyEvent.keyToggle "command" false]

/-- Model of `simulateKeystroke(key, options)` against the failure oracle: runs the main
sequence; on a failure, runs the cleanup (whose own failures are swallowed but
abort the remaining cleanup calls) and re-raises.  Returns the performed events
and whether the call succeeded. -/
def simulateKeystroke (key : String) (shift control alt meta : Bool)
    (failAt : Nat → Bool) : List KeyEvent × Bool :=
  let main := runKeyOps failAt 0 (keystrokeMainOps key shift control alt meta)
  if main.2.2 then (main.2.1, true)
  else
    let cleanup := runKeyOps failAt main.1 keystrokeCleanupOps
    (main.2.1 ++ cleanup.2.1, false)

/-- Whether modifier `m` is held down after a trace of keyboard calls
(initially all modifiers are up). -/
def modifierDown (m : String) (trace : List KeyEvent) : Bool :=
  trace.foldl
    (fun st e =>
      match e with
      | KeyEvent.keyToggle key down => if key = m then down else st
      | KeyEvent.keyTap _ => st)
    false

/-! ## Macro data model (`src/types/macro-types.js`) -/

/-- The `MacroAction` tagged union (`type` field becomes the constructor). -/
inductive MacroAction where
  | click (x y : Int) (targetId : Option String) (clickType : String)
      (clickCount : Nat) (screenId : Int)
  | keyboard (key : String) (withShift withCtrl withAlt withMeta : Bool)
  | text (t : String)
  | delay (duration : Nat)
deriving Repr, DecidableEq

/-- One `MacroStep`.  `generateUniqueId()` draws from `Math.random` and no
claim depends on step ids, so the model always stores `""` there. -/
structure MacroStep where
  id : String
  order : Int
  action : MacroAction
deriving Repr, DecidableEq

/-- A stored `Macro`. -/
structure Macro where
  id : String
  name : String
  description : String
  steps : List MacroStep
  createdAt : String
  updatedAt : String
deriving Repr, DecidableEq

/-- Model of `createClickAction(x, y, options)` with its `||` defaults
(`targetId || null`, `clickType || 'left'`, `clickCount || 1`,
`screenId || 0`). -/
def createClickAction (x y : Int) (targetId : Option String) (clickType : String)
    (clickCount : Nat) (screenId : Int) : MacroAction :=
  MacroAction.click x y
    (if targetId = some "" then none else targetId)
    (if clickType = "" then "left" else clickType)
    (if clickCount = 0 then 1 else clickCount)
    screenId

/-- Model of `createKeyboardAction(key, options)`. -/
def createKeyboardAction (key : String) (withShift withCtrl withAlt withMeta : Bool) :
    MacroAction :=
  MacroAction.keyboard key withShift withCtrl withAlt withMeta

/-- Model of `createTextInputAction(text)`. -/
def createTextInputAction (text : String) : MacroAction :=
  MacroAction.text text

/-- Model of `createDelayAction(duration)`. -/
def createDelayAction (duration : Nat) : MacroAction :=
  MacroAction.delay duration

/-! ## Recorder (`src/src/main/macro-recorder.js`) -/

/-- A stored `Target` (`target-types.js`).  Timestamps are irrelevant to the
claims and omitted. -/
structure Target where
  id : String
  name : String
  coordinates : Coordinates
  clickType : String
  clickCount : Nat
deriving Repr, DecidableEq

/-- The template-literal coordinate key `` `${x},${y},${screenId}` ``. -/
def mkCoordKey (x y screenId : Int) : String :=
  toString x ++ "," ++ toString y ++ "," ++ toString screenId

/-- Model of `Map.set` on an association list: overwrite the existing binding or append
a new one. -/
def mapSet (m : List (String × String)) (k v : String) : List (String × String) :=
  if m.any (fun p => p.1 = k) then m.map (fun p => if p.1 = k then (k, v) else p)
  else m ++ [(k, v)]

/-- Model of `Map.get` on an association list. -/
def mapGet (m : List (String × String)) (k : String) : Option String :=
  (m.find? (fun p => p.1 = k)).map Prod.snd

/-- The coordinate-to-target-id snapshot built in
`_setupRecordingEventHandlers`: every current target keyed by
`(x, y, screenId)`. -/
def buildTargetIdMap (targets : List Target) : List (String × String) :=
  targets.foldl
    (fun m t => mapSet m (mkCoordKey t.coordinates.x t.coordinates.y t.coordinates.screenId) t.id)
    []

/-- The `_recordingState` fields the recording claims depend on. -/
structure RecordingState where
  isRecording : Bool
  currentMacro : Option Macro
  lastActionTime : Nat
  targetIds : List (String × String)
deriving Repr, DecidableEq

/-- Model of `_addStepToMacro(action)`: appends a step whose `order` is the current
number of steps. -/
def addStepToMacro (st : RecordingState) (action : MacroAction) : RecordingState :=
  match st.currentMacro with
  | none => st
  | some m =>
    let step : MacroStep := { id := "", order := (m.steps.length : Int), action := action }
    { st with currentMacro := some { m with steps := m.steps ++ [step] } }

/-- Model of `_addDelayIfNeeded(now)`: appends one delay step when more than 500ms have
elapsed since the last recorded action.  `Date.now()` timestamps are naturals;
a clock running backwards yields a negative elapsed time in the source and `0`
here, and neither exceeds 500. -/
def addDelayIfNeeded (st : RecordingState) (now : Nat) : RecordingState :=
  let timeSinceLastAction := now - st.lastActionTime
  if timeSinceLastAction > 500 then addStepToMacro st (createDelayAction timeSinceLastAction)
  else st

/-- Model of `_recordMouseClick(x, y, button, clickCount)`.  The coordinate key is
built with the hard-coded screen id `0` (`// Assuming screen ID 0 for
simplicity` in the source). -/
def recordMouseClick (st : RecordingState) (now : Nat) (x y : Int) (button : String)
    (clickCount : Nat) : RecordingState :=
  if st.isRecording = false ∨ st.currentMacro = none then st
  else
    let st1 := addDelayIfNeeded st now
    let targetId := mapGet st.targetIds (mkCoordKey x y 0)
    let clickType :=
      if button = "right" then "right" else if clickCount = 2 then "double" else "left"
    let action := createClickAction x y targetId clickType
      (if clickType = "double" then 1 else clickCount) 0
    let st2 := addStepToMacro st1 action
    { st2 with lastActionTime := now }

/-- Model of `_recordKeyPress(key, modifiers)`. -/
def recordKeyPress (st : RecordingState) (now : Nat) (key : String)
    (shift control alt meta : Bool) : RecordingState :=
  if st.isRecording = false ∨ st.currentMacro = none then st
  else
    let st1 := addDelayIfNeeded st now
    let st2 := addStepToMacro st1 (createKeyboardAction key shift control alt meta)
    { st2 with lastActionTime := now }

/-- Model of `_recordTextInput(text)`. -/
def recordTextInput (st : RecordingState) (now : Nat) (text : String) : RecordingState :=
  if st.isRecording = false ∨ st.currentMacro = none then st
  else
    let st1 := addDelayIfNeeded st now
    let st2 := addStepToMacro st1 (createTextInputAction text)
    { st2 with lastActionTime := now }

/-- Model of `saveMacro(macroData)` over the in-memory macro list: rejects falsy data or
ids, stamps `updatedAt`, replaces an existing entry with the same id or
appends, persists (the boolean result of `saveMacros()` is ignored by the
source), and returns the saved macro. -/
def saveMacro (macros : List Macro) (macroData : Macro) (now : String) :
    Except String (Macro × List Macro) :=
  if macroData.id = "" then Except.error "Invalid macro data"
  else
    let updated := { macroData with updatedAt := now }
    match macros.findIdx? (fun m => m.id = macroData.id) with
    | some i => Except.ok (updated, macros.set i updated)
    | none => Except.ok (updated, macros ++ [updated])

/-! ## Player (`macro-player.js`, `src/unnamed/part_008`)

Playback is asynchronous in the source: step failures and stop requests arrive
from the outside.  The model makes those inputs explicit as oracles consulted
exactly where the source consults them.  The pause poll loop (`shouldPause`)
is not modelled: the claims below are about runs in which no pause occurs, and
a pause that is always resumed leaves every modelled observable unchanged. -/

/-- The outside world of one playback run: whether `_executeStep` raises at a
given (1-based iteration, 0-based step index), whether `shouldStop` is set
when checked at the top of that step, and whether `shouldStop` is set when the
`do ... while` condition is evaluated after an iteration. -/
structure PlaybackEnv where
  stepFails : Nat → Nat → Option String
  stopAt : Nat → Nat → Bool
  stopAfter : Nat → Bool

/-- The result object `_executePlayback` resolves with.  `trace` additionally
records the successfully executed steps in execution order (ghost data for the
specification; the source reports only their count). -/
structure PlayResult where
  success : Bool
  stopped : Bool
  stepsExecuted : Nat
  iterations : Nat
  error : Option String
  trace : List MacroStep
deriving Repr, DecidableEq

/-- Outcome of the per-step `for` loop of one iteration. -/
inductive IterOutcome where
  | completed (stepsExecuted : Nat) (trace : List MacroStep)
  | stoppedAt (stepsExecuted : Nat) (trace : List MacroStep)
  | failed (err : String) (stepsExecuted : Nat) (trace : List MacroStep)
deriving Repr, DecidableEq

/-- The `for` loop over the sorted steps of iteration `iter`: check the stop
flag, execute the step (counting successes), and on a failure abort the run
unless `suppressErrors` is set. -/
def runSteps (env : PlaybackEnv) (suppress : Bool) (iter : Nat) :
    List MacroStep → Nat → Nat → List MacroStep → IterOutcome
  | [], _, acc, tr => IterOutcome.completed acc tr
  | step :: rest, idx, acc, tr =>
    if env.stopAt iter idx then IterOutcome.stoppedAt acc tr
    else
      match env.stepFails iter idx with
      | none => runSteps env suppress iter rest (idx + 1) (acc + 1) (tr ++ [step])
      | some e =>
        if suppress then runSteps env suppress iter rest (idx + 1) acc tr
        else IterOutcome.failed e acc tr

/-- The `do ... while` loop of `_executePlayback`: iteration `iter + 1` runs,
then the loop continues while `repeat && iterations < repeatCount &&
!shouldStop`. -/
def runLoop (env : PlaybackEnv) (steps : List MacroStep) (repeatFlag : Bool)
    (repeatCount : Int) (suppress : Bool) (iter acc : Nat) (tr : List MacroStep) :
    PlayResult :=
  match runSteps env suppress (iter + 1) steps 0 acc tr with
  | IterOutcome.stoppedAt acc' tr' =>
    { success := false, stopped := true, stepsExecuted := acc', iterations := iter + 1,
      error := none, trace := tr' }
  | IterOutcome.failed e acc' tr' =>
    { success := false, stopped := false, stepsExecuted := acc', iterations := iter + 1,
      error := some e, trace := tr' }
  | IterOutcome.completed acc' tr' =>
    if h : repeatFlag = true ∧ ((iter + 1 : Nat) : Int) < repeatCount ∧
        env.stopAfter (iter + 1) = false then
      runLoop env steps repeatFlag repeatCount suppress (iter + 1) acc' tr'
    else
      { success := true, stopped := false, stepsExecuted := acc', iterations := iter + 1,
        error := none, trace := tr' }
termination_by (repeatCount - iter).toNat
decreasing_by
  have := h.2.1
  omega

/-- Model of `_executePlayback()`: sorts the steps by `order`
(`[...macro.steps].sort((a, b) => a.order - b.order)`) and runs the iteration
loop.  Any comparison sort agrees with `mergeSort` on the sorted key sequence,
and on the whole list whenever the orders are distinct (the macro invariant);
the unhandled-exception `catch` arm is unreachable in the model because every
step failure is already routed through the oracle. -/
def executePlayback (env : PlaybackEnv) (mac : Macro) (repeatFlag : Bool)
    (repeatCount : Int) (suppress : Bool) : PlayResult :=
  runLoop env (mac.steps.mergeSort (fun a b => decide (a.order ≤ b.order)))
    repeatFlag repeatCount suppress 0 0 []

/-- The playback options of `playMacro`, before `||` defaulting. -/
structure PlayOptions where
  speed : ℚ
  repeatFlag : Bool
  repeatCount : Int
  suppressErrors : Bool
deriving Repr, DecidableEq

/-- Model of `playMacro(macro, options)` called with a macro object (the load-by-id
branch resolves to such an object or rejects earlier): rejects when a session
is already active or the macro has no steps — in both cases before any step
runs — then applies the option defaults (`speed || 1.0`, `repeat || false`,
`repeatCount || 1`, `suppressErrors || false`) and executes. -/
def playMacro (isPlaying : Bool) (mac : Macro) (opts : PlayOptions)
    (env : PlaybackEnv) : Except String PlayResult :=
  if isPlaying then Except.error "Already playing a macro"
  else if mac.steps.isEmpty then Except.error "Cannot play a macro with no steps"
  else
    Except.ok (executePlayback env mac opts.repeatFlag
      (if opts.repeatCount = 0 then 1 else opts.repeatCount) opts.suppressErrors)

/-- Model of `setPlaybackSpeed(speed)` acting on the current `playbackSpeed`: inputs
that are not positive numbers raise inside the `try`, which the surrounding
`catch` turns into `false` with the speed unchanged; positive inputs are
clamped by `Math.min(Math.max(speed, 0.25), 4.0)`.  Returns the success flag
and the new speed; no exception ever reaches the caller. -/
def setPlaybackSpeed (currentSpeed speed : ℚ) : Bool × ℚ :=
  if speed ≤ 0 then (false, currentSpeed)
  else (true, min (max speed (1 / 4)) 4)

/-- Model of `_executeDelayAction`: the waited time is `Math.round(duration / speed)`
(recorded here for the speed-scaling context of `setPlaybackSpeed`). -/
def adjustedDelay (duration : Nat) (speed : ℚ) : Int :=
  jsRound ((duration : ℚ) / speed)

/-! ## Supporting lemmas -/

/-- A concrete environment in which no step fails and no stop is requested. -/
def noFailEnv : PlaybackEnv :=
  { stepFails := fun _ _ => none, stopAt := fun _ _ => false, stopAfter := fun _ => false }

theorem find?_eq_of_mem_of_unique {α : Type} (p : α → Bool) (d : α) :
    ∀ xs : List α, d ∈ xs → p d = true → (∀ x ∈ xs, p x = true → x = d) →
      xs.find? p = some d := by
  intro xs
  induction xs with
  | nil => intro h; cases h
  | cons a l ih =>
    intro hmem hpd huniq
    by_cases hpa : p a = true
    · have ha : a = d := huniq a (List.mem_cons_self a l) hpa
      rw [List.find?_cons_of_pos l hpa, ha]
    · rw [List.find?_cons_of_neg l hpa]
      have hdl : d ∈ l := by
        rcases List.mem_cons.mp hmem with h | h
        · exact absurd (h ▸ hpd) hpa
        · exact h
      exact ih hdl hpd (fun x hx hpx => huniq x (List.mem_cons_of_mem a hx) hpx)

theorem rectDisjoint_symm {s t : ScreenInfo} (h : rectDisjoint s t = true) :
    rectDisjoint t s = true := by
  simp only [rectDisjoint, Bool.or_eq_true, decide_eq_true_eq] at h ⊢
  tauto

theorem rectDisjoint_not_both {s t : ScreenInfo} {gx gy : Int}
    (hd : rectDisjoint s t = true) (hs : screenContains s gx gy = true)
    (ht : screenContains t gx gy = true) : False := by
  simp only [rectDisjoint, Bool.or_eq_true, decide_eq_true_eq] at hd
  simp only [screenContains, Bool.and_eq_true, decide_eq_true_eq] at hs ht
  omega

/-! ## C1: coordinate round trip -/

/-- C1 (counterexample to the claim as stated): with two fully overlapping
displays, the coordinate `(5, 5)` on display `2` satisfies the claim's
premises — display `2` is found by id and `(5, 5)` lies within its bounds —
yet converting to global coordinates and back lands on display `1`, because
`globalToScreenCoordinates` picks the first display containing the point. -/
theorem coordinate_roundtrip_counterexample :
    (([{ id := 1, x := 0, y := 0, width := 100, height := 100, isPrimary := true, scaleFactor := 1 },
       { id := 2, x := 0, y := 0, width := 100, height := 100, isPrimary := false, scaleFactor := 1 }] :
        List ScreenInfo).find?
      (fun s => s.id == (2 : Int)) =
      some { id := 2, x := 0, y := 0, width := 100, height := 100, isPrimary := false,
             scaleFactor := 1 }) ∧
    (screenToGlobalCoordinates { x := 5, y := 5, screenId := 2 }
        [{ id := 1, x := 0, y := 0, width := 100, height := 100, isPrimary := true, scaleFactor := 1 },
         { id := 2, x := 0, y := 0, width := 100, height := 100, isPrimary := false, scaleFactor := 1 }]).bind
      (fun g => globalToScreenCoordinates g.1 g.2
        [{ id := 1, x := 0, y := 0, width := 100, height := 100, isPrimary := true, scaleFactor := 1 },
         { id := 2, x := 0, y := 0, width := 100, height := 100, isPrimary := false, scaleFactor := 1 }]) =
      some { x := 5, y := 5, screenId := 1 } ∧
    ({ x := 5, y := 5, screenId := 1 } : Coordinates) ≠ { x := 5, y := 5, screenId := 2 } := by
  refine ⟨by decide, by decide, by decide⟩

/-- C1 (amended): the round trip
`globalToScreenCoordinates ∘ screenToGlobalCoordinates` is the identity on a
coordinate `c` whose `screenId` resolves to a display `d` containing `(c.x,
c.y)` in its bounds, provided the displays' rectangles are pairwise disjoint
(as physical monitor layouts are); with overlapping displays the round trip
can move `c` to the id of an earlier display in the list. -/
theorem coordinate_roundtrip (screens : List ScreenInfo) (c : Coordinates) (d : ScreenInfo)
    (hfind : screens.find? (fun s => s.id == c.screenId) = some d)
    (hdisj : screens.Pairwise (fun s t => rectDisjoint s t = true))
    (hx0 : 0 ≤ c.x) (hxw : c.x < d.width) (hy0 : 0 ≤ c.y) (hyh : c.y < d.height) :
    (screenToGlobalCoordinates c screens).bind
      (fun g => globalToScreenCoordinates g.1 g.2 screens) = some c := by
  have hdid : d.id = c.screenId := by
    have h := List.find?_some hfind
    simpa using h
  have hmem : d ∈ screens := List.mem_of_find?_eq_some hfind
  have h1 : screenToGlobalCoordinates c screens = some (c.x + d.x, c.y + d.y) := by
    simp [screenToGlobalCoordinates, hfind, Option.orElse]
  rw [h1]
  have hcont : screenContains d (c.x + d.x) (c.y + d.y) = true := by
    simp only [screenContains, Bool.and_eq_true, decide_eq_true_eq]
    omega
  have huniq : ∀ s ∈ screens, screenContains s (c.x + d.x) (c.y + d.y) = true → s = d := by
    intro s hs hcs
    by_contra hne
    have hrd : rectDisjoint s d = true :=
      hdisj.forall (fun {x y} h => rectDisjoint_symm h) hs hmem hne
    exact rectDisjoint_not_both hrd hcs hcont
  have h2 : screens.find? (fun s => screenContains s (c.x + d.x) (c.y + d.y)) = some d :=
    find?_eq_of_mem_of_unique _ d screens hmem hcont huniq
  rw [Option.some_bind]
  have h3 : globalToScreenCoordinates (c.x + d.x) (c.y + d.y) screens =
      some (createCoordinates (c.x + d.x - d.x) (c.y + d.y - d.y) d.id) := by
    simp [globalToScreenCoordinates, h2, Option.orElse]
  rw [h3]
  obtain ⟨cx, cy, cid⟩ := c
  simp only [createCoordinates, Option.some.injEq, Coordinates.mk.injEq] at hdid ⊢
  refine ⟨by omega, by omega, hdid⟩

/-- C1 witness: a two-monitor side-by-side layout, the point `(100, 50)` on
the second display. -/
theorem coordinate_roundtrip_witness :
    (screenToGlobalCoordinates { x := 100, y := 50, screenId := 2 }
        [{ id := 1, x := 0, y := 0, width := 1920, height := 1080, isPrimary := true, scaleFactor := 1 },
         { id := 2, x := 1920, y := 0, width := 1920, height := 1080, isPrimary := false, scaleFactor := 1 }]).bind
      (fun g => globalToScreenCoordinates g.1 g.2
        [{ id := 1, x := 0, y := 0, width := 1920, height := 1080, isPrimary := true, scaleFactor := 1 },
         { id := 2, x := 1920, y := 0, width := 1920, height := 1080, isPrimary := false, scaleFactor := 1 }]) =
      some { x := 100, y := 50, screenId := 2 } :=
  coordinate_roundtrip _ _
    { id := 2, x := 1920, y := 0, width := 1920, height := 1080, isPrimary := false,
      scaleFactor := 1 }
    (by decide) (by decide) (by decide) (by decide) (by decide) (by decide)

/-! ## C3: playback speed clamping -/

/-- C3 (counterexample to the claim as stated): the input `0` is below `0.25`,
but `setPlaybackSpeed` does not set the speed to `0.25`: the `speed <= 0`
validation raises inside the `try`, the `catch` returns `false`, and the
current speed (here `1`) is left unchanged. -/
theorem setPlaybackSpeed_counterexample :
    setPlaybackSpeed 1 0 = (false, 1) ∧ (setPlaybackSpeed 1 0).2 ≠ 1 / 4 := by
  have h : setPlaybackSpeed 1 0 = (false, 1) := by
    simp [setPlaybackSpeed]
  refine ⟨h, ?_⟩
  rw [h]
  norm_num

/-- C3 (amended): `setPlaybackSpeed` never lets an exception reach the caller
(it returns a boolean, modelled by the function being total); inputs in
`(0, 0.25)` are clamped to `0.25`, inputs above `4.0` to `4.0`, in-range
inputs are kept; but inputs `≤ 0` are rejected by the `speed <= 0` guard and
leave the speed unchanged instead of being clamped up to `0.25`. -/
theorem setPlaybackSpeed_clamps (cur s : ℚ) :
    (s ≤ 0 → setPlaybackSpeed cur s = (false, cur)) ∧
    (0 < s →
      (setPlaybackSpeed cur s).1 = true ∧
      1 / 4 ≤ (setPlaybackSpeed cur s).2 ∧ (setPlaybackSpeed cur s).2 ≤ 4 ∧
      (s < 1 / 4 → (setPlaybackSpeed cur s).2 = 1 / 4) ∧
      (4 < s → (setPlaybackSpeed cur s).2 = 4) ∧
      (1 / 4 ≤ s → s ≤ 4 → (setPlaybackSpeed cur s).2 = s)) := by
  constructor
  · intro h
    simp [setPlaybackSpeed, h]
  · intro h
    have hns : ¬s ≤ 0 := not_le.mpr h
    have hsp : setPlaybackSpeed cur s = (true, min (max s (1 / 4)) 4) := by
      simp [setPlaybackSpeed, hns]
    rw [hsp]
    refine ⟨rfl, ?_, ?_, ?_, ?_, ?_⟩
    · exact le_min (le_max_right _ _) (by norm_num)
    · exact min_le_right _ _
    · intro hlt
      rw [max_eq_right hlt.le, min_eq_left (by norm_num)]
    · intro hgt
      rw [max_eq_left (le_trans (by norm_num) hgt.le), min_eq_right hgt.le]
    · intro hge hle
      rw [max_eq_left hge, min_eq_left hle]

/-- C3 witness: `0.125` is clamped to `0.25` and `8` to `4`. -/
theorem setPlaybackSpeed_clamps_witness :
    (setPlaybackSpeed 1 (1 / 8)).2 = 1 / 4 ∧ (setPlaybackSpeed 1 8).2 = 4 :=
  ⟨((setPlaybackSpeed_clamps 1 (1 / 8)).2 (by norm_num)).2.2.2.1 (by norm_num),
   ((setPlaybackSpeed_clamps 1 8).2 (by norm_num)).2.2.2.2.1 (by norm_num)⟩

/-! ## C4: click counts -/

theorem smoothMoveLoop_filter_press (startX startY x y : Int) (steps : Nat) :
    ∀ n, (smoothMoveLoop startX startY x y steps n).filter isPressEvent = []
  | 0 => rfl
  | n + 1 => by
    rw [smoothMoveLoop, List.filter_append,
      smoothMoveLoop_filter_press startX startY x y steps n]
    rfl

theorem moveMouse_filter_press (startX startY x y : Int) (smooth : Bool) :
    (moveMouse startX startY x y smooth).filter isPressEvent = [] := by
  unfold moveMouse
  split
  · split
    · rfl
    · rw [List.filter_append, smoothMoveLoop_filter_press]
      rfl
  · rfl

theorem clickLoop_eq_intersperse (ct : String) :
    ∀ m, clickLoop ct m =
      List.intersperse (SimEvent.sleep 30) (List.replicate m (performClick ct))
  | 0 => rfl
  | 1 => rfl
  | n + 2 => by
    have hstep : List.intersperse (SimEvent.sleep 30)
        (List.replicate (n + 2) (performClick ct)) =
        performClick ct :: SimEvent.sleep 30 ::
          List.intersperse (SimEvent.sleep 30) (List.replicate (n + 1) (performClick ct)) := by
      rw [List.replicate_succ, List.replicate_succ, List.intersperse_cons_cons]
    rw [clickLoop, clickLoop_eq_intersperse ct (n + 1), hstep]

theorem clickLoop_filter_press (ct : String) :
    ∀ m, (clickLoop ct m).filter isPressEvent = List.replicate m (performClick ct)
  | 0 => rfl
  | 1 => rfl
  | n + 2 => by
    rw [clickLoop, List.filter_cons, List.filter_cons,
      clickLoop_filter_press ct (n + 1)]
    simp [performClick, isPressEvent, List.replicate_succ]

/-- C4: for `clickType = 'double'`, `simulateClick` performs exactly two
left-button presses 30ms apart, whatever `clickCount` was requested; for the
real buttons (`left`, `right`, `middle`) with `clickCount = n ≥ 1` it performs
exactly `n` presses of that button, with `_sleep(30)` between successive
presses.  No other phase of `simulateClick` (moves, settles, restore) emits a
press. -/
theorem simulateClick_presses (startX startY x y : Int) (ct : String) (n : Nat)
    (rp : Bool) (hn : 1 ≤ n)
    (hct : ct = "left" ∨ ct = "right" ∨ ct = "middle" ∨ ct = "double") :
    ((simulateClick startX startY x y ct n rp).filter isPressEvent =
      if ct = "double" then [SimEvent.mouseClick "left", SimEvent.mouseClick "left"]
      else List.replicate n (SimEvent.mouseClick ct)) ∧
    (ct = "double" →
      clickEvents ct n =
        [SimEvent.mouseClick "left", SimEvent.sleep 30, SimEvent.mouseClick "left"]) ∧
    (ct ≠ "double" →
      clickEvents ct n =
        List.intersperse (SimEvent.sleep 30) (List.replicate n (SimEvent.mouseClick ct))) := by
  have hne : ¬ct = "" := by
    rcases hct with h | h | h | h <;> simp [h]
  have hn0 : ¬n = 0 := by omega
  have hsim : simulateClick startX startY x y ct n rp =
      moveMouse startX startY x y true ++ [SimEvent.sleep 50] ++ clickEvents ct n ++
        (if rp then SimEvent.sleep 50 :: moveMouse x y startX startY true else []) := by
    simp only [simulateClick, if_neg hne, if_neg hn0]
  have hrest : (if rp then SimEvent.sleep 50 :: moveMouse x y startX startY true
      else []).filter isPressEvent = [] := by
    split
    · rw [List.filter_cons]
      simp [isPressEvent, moveMouse_filter_press]
    · rfl
  by_cases hd : ct = "double"
  · subst hd
    refine ⟨?_, fun _ => rfl, fun h => absurd rfl h⟩
    rw [hsim]
    simp [List.filter_append, moveMouse_filter_press, hrest, clickEvents, isPressEvent,
      performClick, buttonMap]
  · have hbtn : performClick ct = SimEvent.mouseClick ct := by
      rcases hct with h | h | h | h <;> simp [performClick, buttonMap, h]
      exact absurd h hd
    have hce : clickEvents ct n = clickLoop ct n := by
      simp [clickEvents, hd]
    refine ⟨?_, fun h => absurd h hd, fun _ => ?_⟩
    · rw [hsim, if_neg hd]
      rw [List.filter_append, List.filter_append, List.filter_append,
        moveMouse_filter_press, hrest, hce, clickLoop_filter_press, hbtn]
      simp [isPressEvent]
    · rw [hce, clickLoop_eq_intersperse, hbtn]

/-- C4 witness: a triple right click yields three right presses; a double
click requested with `clickCount = 5` yields exactly two left presses. -/
theorem simulateClick_presses_witness :
    ((simulateClick 0 0 100 0 "right" 3 false).filter isPressEvent =
      List.replicate 3 (SimEvent.mouseClick "right")) ∧
    ((simulateClick 0 0 100 0 "double" 5 false).filter isPressEvent =
      [SimEvent.mouseClick "left", SimEvent.mouseClick "left"]) := by
  have h1 := (simulateClick_presses 0 0 100 0 "right" 3 false (by decide)
    (Or.inr (Or.inl rfl))).1
  have h2 := (simulateClick_presses 0 0 100 0 "double" 5 false (by decide)
    (Or.inr (Or.inr (Or.inr rfl)))).1
  rw [if_neg (by decide)] at h1
  rw [if_pos rfl] at h2
  exact ⟨h1, h2⟩

/-! ## C6: smooth mouse movement -/

/-- Recognizer for the 5ms waypoint pacing waits. -/
def isSleep5 : SimEvent → Bool
  | SimEvent.sleep 5 => true
  | _ => false

theorem ceilSqrt_perfect (m : Nat) : ceilSqrt (m * m) = m := by
  unfold ceilSqrt
  rw [Nat.sqrt_eq]
  simp

theorem jsRound_intCast (n : Int) : jsRound (n : ℚ) = n := by
  unfold jsRound
  rw [add_comm, Int.floor_add_int]
  norm_num

theorem smoothMoveLoop_countP_sleep (startX startY x y : Int) (steps : Nat) :
    ∀ n, (smoothMoveLoop startX startY x y steps n).countP isSleep5 = n
  | 0 => rfl
  | n + 1 => by
    rw [smoothMoveLoop, List.countP_append,
      smoothMoveLoop_countP_sleep startX startY x y steps n]
    rfl

theorem smoothMoveLoop_countP_move (startX startY x y : Int) (steps : Nat) :
    ∀ n, (smoothMoveLoop startX startY x y steps n).countP isMoveEvent = n
  | 0 => rfl
  | n + 1 => by
    rw [smoothMoveLoop, List.countP_append,
      smoothMoveLoop_countP_move startX startY x y steps n]
    rfl

theorem smoothMoveLoop_mem_move (startX startY x y : Int) (steps : Nat) :
    ∀ n, n ≤ steps → ∀ e ∈ smoothMoveLoop startX startY x y steps n, isMoveEvent e = true →
      ∃ t : ℚ, 0 ≤ t ∧ t ≤ 1 ∧
        e = SimEvent.moveMouse (jsRound ((startX : ℚ) + ((x : ℚ) - (startX : ℚ)) * t))
          (jsRound ((startY : ℚ) + ((y : ℚ) - (startY : ℚ)) * t))
  | 0 => by
    intro _ e he
    cases he
  | n + 1 => by
    intro hle e he hm
    rw [smoothMoveLoop] at he
    rcases List.mem_append.mp he with h | h
    · exact smoothMoveLoop_mem_move startX startY x y steps n (by omega) e h hm
    · have hsteps : (0 : ℚ) < (steps : ℚ) := by
        have : 0 < steps := by omega
        exact_mod_cast this
      rcases List.mem_cons.mp h with rfl | h2
      · refine ⟨((n + 1 : Nat) : ℚ) / (steps : ℚ), ?_, ?_, ?_⟩
        · positivity
        · apply div_le_one_of_le₀
          · exact_mod_cast hle
          · exact hsteps.le
        · rfl
      · rcases List.mem_cons.mp h2 with rfl | h3
        · cases hm
        · cases h3

/-- C6 (counterexample to the claim as stated): a smooth move of distance 15
should, per the claim, emit `min(ceil(15 / 10), 50) = 2` intermediate
waypoints paced 5ms apart; the source's `distance < 20` short-circuit instead
moves directly in a single step with no waypoints and no waits. -/
theorem moveMouse_smooth_counterexample :
    moveMouse 0 0 15 0 true = [SimEvent.moveMouse 15 0] ∧
    smoothStepCount (distSq 0 0 15 0) = 2 ∧
    (moveMouse 0 0 15 0 true).countP isSleep5 = 0 ∧
    (moveMouse 0 0 15 0 true).countP isSleep5 ≠ smoothStepCount (distSq 0 0 15 0) := by
  have hd : distSq 0 0 15 0 = 15 * 15 := by decide
  have hsc : smoothStepCount (distSq 0 0 15 0) = 2 := by
    rw [hd, smoothStepCount, ceilSqrt_perfect]
    decide
  have hcount : (moveMouse 0 0 15 0 true).countP isSleep5 = 0 := by decide
  refine ⟨by decide, hsc, hcount, ?_⟩
  rw [hsc, hcount]
  decide

/-- C6 (amended): for smooth moves of distance at least 20 — shorter moves
take the source's direct-move short-circuit — `moveMouse` emits exactly
`min(ceil(distance / 10), 50)` waypoint moves, each followed by a 5ms wait,
finishing with an exact `robot.moveMouse(x, y)`; and every move emitted lies
(after `Math.round`) on the straight line from start to target. -/
theorem moveMouse_smooth (startX startY x y : Int)
    (h : 400 ≤ distSq startX startY x y) :
    ((moveMouse startX startY x y true).countP isSleep5 =
      smoothStepCount (distSq startX startY x y)) ∧
    ((moveMouse startX startY x y true).countP isMoveEvent =
      smoothStepCount (distSq startX startY x y) + 1) ∧
    ((moveMouse startX startY x y true).getLast? = some (SimEvent.moveMouse x y)) ∧
    (∀ e ∈ moveMouse startX startY x y true, isMoveEvent e = true →
      ∃ t : ℚ, 0 ≤ t ∧ t ≤ 1 ∧
        e = SimEvent.moveMouse (jsRound ((startX : ℚ) + ((x : ℚ) - (startX : ℚ)) * t))
          (jsRound ((startY : ℚ) + ((y : ℚ) - (startY : ℚ)) * t))) := by
  have hnot : ¬distSq startX startY x y < 400 := by omega
  have hmv : moveMouse startX startY x y true =
      smoothMoveLoop startX startY x y (smoothStepCount (distSq startX startY x y))
        (smoothStepCount (distSq startX startY x y)) ++ [SimEvent.moveMouse x y] := by
    simp [moveMouse, hnot]
  rw [hmv]
  refine ⟨?_, ?_, List.getLast?_concat _, ?_⟩
  · rw [List.countP_append, smoothMoveLoop_countP_sleep]
    rfl
  · rw [List.countP_append, smoothMoveLoop_countP_move]
    rfl
  · intro e he hm
    rcases List.mem_append.mp he with h1 | h1
    · exact smoothMoveLoop_mem_move startX startY x y _ _ le_rfl e h1 hm
    · rcases List.mem_cons.mp h1 with rfl | h2
      · refine ⟨1, by norm_num, le_rfl, ?_⟩
        have hx : (startX : ℚ) + ((x : ℚ) - (startX : ℚ)) * 1 = (x : ℚ) := by ring
        have hy : (startY : ℚ) + ((y : ℚ) - (startY : ℚ)) * 1 = (y : ℚ) := by ring
        rw [hx, hy, jsRound_intCast, jsRound_intCast]
      · cases h2

/-- C6 witness: a smooth move of distance 100 emits
`min(ceil(100 / 10), 50) = 10` waypoints. -/
theorem moveMouse_smooth_witness :
    (moveMouse 0 0 100 0 true).countP isSleep5 = smoothStepCount (distSq 0 0 100 0) ∧
    smoothStepCount (distSq 0 0 100 0) = 10 :=
  ⟨(moveMouse_smooth 0 0 100 0 (by rw [show distSq 0 0 100 0 = 100 * 100 from by decide]; omega)).1,
   by rw [show distSq 0 0 100 0 = 100 * 100 from by decide, smoothStepCount, ceilSqrt_perfect]; decide⟩

/-! ## C7: keystroke modifier handling -/

/-- Turns a toggle into the opposite toggle (used to state that releases
mirror presses). -/
def flipKeyToggle : KeyEvent → KeyEvent
  | KeyEvent.keyToggle k d => KeyEvent.keyToggle k (!d)
  | e => e

theorem modUpOps_reverse (s c a m : Bool) :
    modUpOps s c a m = (modDownOps s c a m).reverse.map flipKeyToggle := by
  cases s <;> cases c <;> cases a <;> cases m <;> rfl

theorem runKeyOps_noFail (failAt : Nat → Bool) :
    ∀ (ops : List KeyEvent) (start : Nat), (∀ j, start ≤ j → failAt j = false) →
      runKeyOps failAt start ops = (start + ops.length, ops, true)
  | [], start => by
    intro _
    simp [runKeyOps]
  | op :: ops, start => by
    intro h
    rw [runKeyOps, h start le_rfl]
    rw [runKeyOps_noFail failAt ops (start + 1) (fun j hj => h j (by omega))]
    simp only [Bool.false_eq_true, if_false, List.length_cons]
    have harith : start + 1 + ops.length = start + (ops.length + 1) := by omega
    rw [harith]

theorem runKeyOps_failOnce (failAt : Nat → Bool) (k0 : Nat)
    (hf : ∀ j, failAt j = (j == k0)) :
    ∀ (ops : List KeyEvent) (start : Nat), start ≤ k0 → k0 < start + ops.length →
      runKeyOps failAt start ops = (k0 + 1, ops.take (k0 - start), false)
  | [], start => by
    intro h1 h2
    simp at h2
    omega
  | op :: ops, start => by
    intro h1 h2
    by_cases he : start = k0
    · subst he
      have hfa : failAt start = true := by
        rw [hf]
        simp
      rw [runKeyOps, hfa]
      simp
    · have hfa : failAt start = false := by
        rw [hf]
        simp only [beq_eq_false_iff_ne, ne_eq]
        omega
      rw [runKeyOps, hfa]
      rw [runKeyOps_failOnce failAt k0 hf ops (start + 1) (by omega)
        (by simp at h2 ⊢; omega)]
      simp only [Bool.false_eq_true, if_false]
      rw [show k0 - start = (k0 - start - 1) + 1 from by omega, List.take_succ_cons,
        show k0 - (start + 1) = k0 - start - 1 from by omega]

theorem modifierDown_after_cleanup (m : String)
    (hm : m = "shift" ∨ m = "control" ∨ m = "alt" ∨ m = "command")
    (l : List KeyEvent) : modifierDown m (l ++ keystrokeCleanupOps) = false := by
  unfold modifierDown keystrokeCleanupOps
  rw [List.foldl_append]
  generalize List.foldl _ false l = b
  rcases hm with rfl | rfl | rfl | rfl <;> simp [List.foldl]

/-- C7: `simulateKeystroke` toggles the requested modifiers down (shift,
control, alt, meta), taps the key, and toggles them up in reverse order of
pressing (meta, alt, control, shift); and whenever any robotjs call of the
sequence raises, the `catch` block forces all four modifiers up before the
error propagates (provided the cleanup toggles themselves do not also raise,
which the source's inner `try` silently tolerates). -/
theorem simulateKeystroke_modifier_release (key : String) (s c a m : Bool) :
    (∀ failAt : Nat → Bool, (∀ k, failAt k = false) →
      simulateKeystroke key s c a m failAt =
        (modDownOps s c a m ++ [KeyEvent.keyTap (convertToRobotKey key)] ++
          modUpOps s c a m, true) ∧
      modUpOps s c a m = (modDownOps s c a m).reverse.map flipKeyToggle) ∧
    (∀ failAt : Nat → Bool, ∀ k0 : Nat,
      (∀ j, failAt j = (j == k0)) → k0 < (keystrokeMainOps key s c a m).length →
      (simulateKeystroke key s c a m failAt).2 = false ∧
      ∀ md ∈ ["shift", "control", "alt", "command"],
        modifierDown md (simulateKeystroke key s c a m failAt).1 = false) := by
  constructor
  · intro failAt hf
    have hrun := runKeyOps_noFail failAt (keystrokeMainOps key s c a m) 0
      (fun j _ => hf j)
    refine ⟨?_, modUpOps_reverse s c a m⟩
    rw [simulateKeystroke, hrun]
    rfl
  · intro failAt k0 hf hlt
    have hmain := runKeyOps_failOnce failAt k0 hf (keystrokeMainOps key s c a m) 0
      (by omega) (by omega)
    have hclean : runKeyOps failAt (k0 + 1) keystrokeCleanupOps =
        (k0 + 1 + keystrokeCleanupOps.length, keystrokeCleanupOps, true) := by
      apply runKeyOps_noFail
      intro j hj
      rw [hf]
      simp only [beq_eq_false_iff_ne, ne_eq]
      omega
    have htr : simulateKeystroke key s c a m failAt =
        ((keystrokeMainOps key s c a m).take (k0 - 0) ++ keystrokeCleanupOps, false) := by
      rw [simulateKeystroke, hmain]
      simp only [Bool.false_eq_true, if_false]
      rw [hclean]
    rw [htr]
    refine ⟨rfl, ?_⟩
    intro md hmd
    have hm4 : md = "shift" ∨ md = "control" ∨ md = "alt" ∨ md = "command" := by
      simpa using hmd
    exact modifierDown_after_cleanup md hm4 _

/-- C7 witness: `ctrl+shift+alt+meta+a` with no failure performs the full
sequence; with the third call failing, the run reports failure and every
modifier ends up released. -/
theorem simulateKeystroke_modifier_release_witness :
    (simulateKeystroke "a" true true true true (fun _ => false)).2 = true ∧
    (simulateKeystroke "a" true true true true (fun k => k == 2)).2 = false ∧
    modifierDown "alt" (simulateKeystroke "a" true true true true (fun k => k == 2)).1 =
      false := by
  have h1 := (simulateKeystroke_modifier_release "a" true true true true).1
    (fun _ => false) (fun _ => rfl)
  have h2 := (simulateKeystroke_modifier_release "a" true true true true).2
    (fun k => k == 2) 2 (fun _ => rfl) (by decide)
  refine ⟨?_, h2.1, h2.2 "alt" (by simp)⟩
  rw [h1.1]

/-! ## C5: delay-step insertion while recording -/

/-- The steps a single recorded event appends to a macro whose last action was
at `last`: one delay step (carrying the elapsed time) immediately before the
action step when more than 500ms elapsed, else the action step alone. -/
def recordedSteps (m : Macro) (now last : Nat) (act : MacroAction) : List MacroStep :=
  if 500 < now - last then
    [{ id := "", order := (m.steps.length : Int), action := MacroAction.delay (now - last) },
     { id := "", order := (m.steps.length : Int) + 1, action := act }]
  else [{ id := "", order := (m.steps.length : Int), action := act }]

theorem record_step_append (st : RecordingState) (m : Macro) (now : Nat)
    (act : MacroAction) (hm : st.currentMacro = some m) :
    addStepToMacro (addDelayIfNeeded st now) act =
      { st with
        currentMacro := some { m with steps := m.steps ++ recordedSteps m now st.lastActionTime act } } := by
  unfold addDelayIfNeeded addStepToMacro createDelayAction recordedSteps
  by_cases hgt : 500 < now - st.lastActionTime
  · simp only [if_pos hgt, gt_iff_lt, hm]
    simp [List.append_assoc]
  · simp only [if_neg hgt, gt_iff_lt, hm]

/-- C5: on every incoming recorded event — mouse click, key press or text
input — the recorder appends exactly one delay step carrying the elapsed time
immediately before the new action step when strictly more than 500ms have
passed since the last recorded action, and appends no delay step when 500ms
or less have passed. -/
theorem recording_delay_insertion (st : RecordingState) (m : Macro) (now : Nat)
    (hrec : st.isRecording = true) (hm : st.currentMacro = some m) :
    (∀ (x y : Int) (button : String) (clickCount : Nat), ∃ act : MacroAction,
      (∀ d, act ≠ MacroAction.delay d) ∧
      recordMouseClick st now x y button clickCount =
        { st with
          currentMacro := some { m with steps := m.steps ++ recordedSteps m now st.lastActionTime act },
          lastActionTime := now }) ∧
    (∀ (key : String) (s c a mt : Bool), ∃ act : MacroAction,
      (∀ d, act ≠ MacroAction.delay d) ∧
      recordKeyPress st now key s c a mt =
        { st with
          currentMacro := some { m with steps := m.steps ++ recordedSteps m now st.lastActionTime act },
          lastActionTime := now }) ∧
    (∀ text : String, ∃ act : MacroAction,
      (∀ d, act ≠ MacroAction.delay d) ∧
      recordTextInput st now text =
        { st with
          currentMacro := some { m with steps := m.steps ++ recordedSteps m now st.lastActionTime act },
          lastActionTime := now }) := by
  have hcond : ¬(st.isRecording = false ∨ st.currentMacro = none) := by
    simp [hrec, hm]
  refine ⟨?_, ?_, ?_⟩
  · intro x y button clickCount
    refine ⟨createClickAction x y (mapGet st.targetIds (mkCoordKey x y 0))
      (if button = "right" then "right" else if clickCount = 2 then "double" else "left")
      (if (if button = "right" then "right"
           else if clickCount = 2 then "double" else "left") = "double" then 1 else clickCount)
      0, ?_, ?_⟩
    · intro d
      simp [createClickAction]
    · simp only [recordMouseClick, if_neg hcond]
      rw [record_step_append st m now _ hm]
  · intro key s c a mt
    refine ⟨createKeyboardAction key s c a mt, ?_, ?_⟩
    · intro d
      simp [createKeyboardAction]
    · simp only [recordKeyPress, if_neg hcond]
      rw [record_step_append st m now _ hm]
  · intro text
    refine ⟨createTextInputAction text, ?_, ?_⟩
    · intro d
      simp [createTextInputAction]
    · simp only [recordTextInput, if_neg hcond]
      rw [record_step_append st m now _ hm]

/-- C5 witness: with the last action at t=1000ms, a click at t=1601ms records
two steps (delay then click); a click at t=1300ms records one step. -/
theorem recording_delay_insertion_witness :
    ((recordMouseClick
        { isRecording := true,
          currentMacro := some { id := "m1", name := "n", description := "", steps := [], createdAt := "", updatedAt := "" },
          lastActionTime := 1000, targetIds := [] }
        1601 5 5 "left" 1).currentMacro.map (fun mm => mm.steps.length) = some 2) ∧
    ((recordMouseClick
        { isRecording := true,
          currentMacro := some { id := "m1", name := "n", description := "", steps := [], createdAt := "", updatedAt := "" },
          lastActionTime := 1000, targetIds := [] }
        1300 5 5 "left" 1).currentMacro.map (fun mm => mm.steps.length) = some 1) := by
  obtain ⟨act1, -, heq1⟩ := (recording_delay_insertion
    { isRecording := true,
      currentMacro := some { id := "m1", name := "n", description := "", steps := [], createdAt := "", updatedAt := "" },
      lastActionTime := 1000, targetIds := [] }
    { id := "m1", name := "n", description := "", steps := [], createdAt := "", updatedAt := "" }
    1601 rfl rfl).1 5 5 "left" 1
  obtain ⟨act2, -, heq2⟩ := (recording_delay_insertion
    { isRecording := true,
      currentMacro := some { id := "m1", name := "n", description := "", steps := [], createdAt := "", updatedAt := "" },
      lastActionTime := 1000, targetIds := [] }
    { id := "m1", name := "n", description := "", steps := [], createdAt := "", updatedAt := "" }
    1300 rfl rfl).1 5 5 "left" 1
  rw [heq1, heq2]
  constructor
  · simp [recordedSteps]
  · simp [recordedSteps]

/-! ## C8: target association while recording -/

/-- The `targetId` carried by a click action (`none` for every other action). -/
def actionTargetId : MacroAction → Option String
  | MacroAction.click _ _ targetId _ _ _ => targetId
  | _ => none

/-- C8 (counterexample to the claim as stated): the recording snapshot holds a
target at exactly `(10, 10)` on display `1`, and a click arrives at
`(10, 10)` on that display; the claim says the recorded step carries `"t1"`,
but the recorder looks up the key `"10,10,0"` (screen id hard-coded to 0, the
click event carries no display at all), finds nothing, and records
`targetId = null`. -/
theorem recordClick_targetId_counterexample :
    buildTargetIdMap [{ id := "t1", name := "btn", coordinates := { x := 10, y := 10, screenId := 1 }, clickType := "left", clickCount := 1 }] = [("10,10,1", "t1")] ∧
    (recordMouseClick
        { isRecording := true,
          currentMacro := some { id := "m1", name := "n", description := "", steps := [], createdAt := "", updatedAt := "" },
          lastActionTime := 1000,
          targetIds := buildTargetIdMap
            [{ id := "t1", name := "btn", coordinates := { x := 10, y := 10, screenId := 1 }, clickType := "left", clickCount := 1 }] }
        1000 10 10 "left" 1).currentMacro =
      some { id := "m1", name := "n", description := "",
             steps := [{ id := "", order := 0, action := MacroAction.click 10 10 none "left" 1 0 }],
             createdAt := "", updatedAt := "" } := by
  refine ⟨by decide, by decide⟩

/-- C8 (amended): the recorded click step carries a snapshotted target's id
exactly when the snapshot contains the key `(x, y, 0)`: the recorder builds
the click's lookup key with a hard-coded screen id `0`, so only targets whose
stored coordinates have `screenId = 0` are ever matched, and the display the
click actually happened on plays no role. -/
theorem recordClick_targetId (st : RecordingState) (m : Macro) (now : Nat)
    (x y : Int) (button : String) (clickCount : Nat) (tid : String)
    (hrec : st.isRecording = true) (hm : st.currentMacro = some m)
    (hlookup : mapGet st.targetIds (mkCoordKey x y 0) = some tid) (htid : tid ≠ "") :
    ∃ m', (recordMouseClick st now x y button clickCount).currentMacro = some m' ∧
      ∃ last, m'.steps.getLast? = some last ∧ actionTargetId last.action = some tid := by
  have hcond : ¬(st.isRecording = false ∨ st.currentMacro = none) := by
    simp [hrec, hm]
  simp only [recordMouseClick, if_neg hcond]
  rw [record_step_append st m now _ hm]
  refine ⟨_, rfl, ?_⟩
  have hact : actionTargetId (createClickAction x y (mapGet st.targetIds (mkCoordKey x y 0))
      (if button = "right" then "right" else if clickCount = 2 then "double" else "left")
      (if (if button = "right" then "right"
           else if clickCount = 2 then "double" else "left") = "double" then 1 else clickCount)
      0) = some tid := by
    rw [hlookup]
    simp [createClickAction, actionTargetId, htid]
  unfold recordedSteps
  by_cases h5 : 500 < now - st.lastActionTime
  · rw [if_pos h5]
    rw [show m.steps ++
        [{ id := "", order := (m.steps.length : Int), action := MacroAction.delay (now - st.lastActionTime) },
         { id := "", order := (m.steps.length : Int) + 1,
           action := createClickAction x y (mapGet st.targetIds (mkCoordKey x y 0))
             (if button = "right" then "right" else if clickCount = 2 then "double" else "left")
             (if (if button = "right" then "right"
                  else if clickCount = 2 then "double" else "left") = "double" then 1 else clickCount)
             0 }] =
      (m.steps ++
        [{ id := "", order := (m.steps.length : Int), action := MacroAction.delay (now - st.lastActionTime) }]) ++
        [{ id := "", order := (m.steps.length : Int) + 1,
           action := createClickAction x y (mapGet st.targetIds (mkCoordKey x y 0))
             (if button = "right" then "right" else if clickCount = 2 then "double" else "left")
             (if (if button = "right" then "right"
                  else if clickCount = 2 then "double" else "left") = "double" then 1 else clickCount)
             0 }] from by simp]
    exact ⟨_, List.getLast?_concat _, hact⟩
  · rw [if_neg h5]
    exact ⟨_, List.getLast?_concat _, hact⟩

/-- C8 witness: a target stored at `(5, 7)` on screen `0` is matched by a
click at `(5, 7)` and its id lands in the recorded step. -/
theorem recordClick_targetId_witness :
    ∃ m', (recordMouseClick
        { isRecording := true,
          currentMacro := some { id := "m1", name := "n", description := "", steps := [], createdAt := "", updatedAt := "" },
          lastActionTime := 1000,
          targetIds := buildTargetIdMap
            [{ id := "t1", name := "btn", coordinates := { x := 5, y := 7, screenId := 0 }, clickType := "left", clickCount := 1 }] }
        1000 5 7 "left" 1).currentMacro = some m' ∧
      ∃ last, m'.steps.getLast? = some last ∧ actionTargetId last.action = some "t1" :=
  recordClick_targetId _
    { id := "m1", name := "n", description := "", steps := [], createdAt := "", updatedAt := "" }
    1000 5 7 "left" 1 "t1" rfl rfl (by decide) (by decide)

/-! ## Playback lemmas shared by C2, C9 and C10 -/

theorem runSteps_noFail (env : PlaybackEnv) (sup : Bool) (iter : Nat)
    (hnf : ∀ i j, env.stepFails i j = none) (hns : ∀ i j, env.stopAt i j = false) :
    ∀ (steps : List MacroStep) (idx acc : Nat) (tr : List MacroStep),
      runSteps env sup iter steps idx acc tr =
        IterOutcome.completed (acc + steps.length) (tr ++ steps)
  | [], idx, acc, tr => by
    simp [runSteps]
  | s :: rest, idx, acc, tr => by
    rw [runSteps, hns iter idx, hnf iter idx]
    simp only [Bool.false_eq_true, if_false]
    rw [runSteps_noFail env sup iter hnf hns rest (idx + 1) (acc + 1) (tr ++ [s])]
    simp only [IterOutcome.completed.injEq, List.length_cons, List.append_assoc,
      List.singleton_append, true_and, and_true]
    omega

theorem runLoop_noRepeat_noFail (env : PlaybackEnv) (steps : List MacroStep)
    (repeatCount : Int) (sup : Bool) (iter acc : Nat) (tr : List MacroStep)
    (hnf : ∀ i j, env.stepFails i j = none) (hns : ∀ i j, env.stopAt i j = false) :
    runLoop env steps false repeatCount sup iter acc tr =
      { success := true, stopped := false, stepsExecuted := acc + steps.length,
        iterations := iter + 1, error := none, trace := tr ++ steps } := by
  rw [runLoop, runSteps_noFail env sup (iter + 1) hnf hns steps 0 acc tr]
  simp

theorem runLoop_noRepeat_iterations (env : PlaybackEnv) (steps : List MacroStep)
    (repeatCount : Int) (sup : Bool) (iter acc : Nat) (tr : List MacroStep) :
    (runLoop env steps false repeatCount sup iter acc tr).iterations = iter + 1 := by
  rw [runLoop]
  split
  · rfl
  · rfl
  · simp

theorem runLoop_iterations_le (env : PlaybackEnv) (steps : List MacroStep) (rf : Bool)
    (rc : Int) (sup : Bool) :
    ∀ (fuel iter acc : Nat) (tr : List MacroStep), (rc - iter).toNat ≤ fuel →
      (runLoop env steps rf rc sup iter acc tr).iterations ≤ max (iter + 1) rc.toNat := by
  intro fuel
  induction fuel with
  | zero =>
    intro iter acc tr hle
    rw [runLoop]
    split
    · exact le_max_left _ _
    · exact le_max_left _ _
    · rw [dif_neg]
      · exact le_max_left _ _
      · rintro ⟨-, hlt, -⟩
        omega
  | succ fuel ih =>
    intro iter acc tr hle
    rw [runLoop]
    split
    · exact le_max_left _ _
    · exact le_max_left _ _
    · next acc' tr' heq =>
      by_cases hc : rf = true ∧ ((iter + 1 : Nat) : Int) < rc ∧ env.stopAfter (iter + 1) = false
      · rw [dif_pos hc]
        have h1 := ih (iter + 1) acc' tr' (by omega)
        obtain ⟨-, hlt, -⟩ := hc
        omega
      · rw [dif_neg hc]
        exact le_max_left _ _

theorem findIdx?_lt_length {α : Type} (p : α → Bool) :
    ∀ (l : List α) (s i : Nat), List.findIdx? p l s = some i → i < s + l.length ∧ s ≤ i
  | [], s, i => by
    intro h
    simp [List.findIdx?] at h
  | a :: l, s, i => by
    intro h
    rw [List.findIdx?_cons] at h
    by_cases hp : p a = true
    · rw [if_pos hp] at h
      cases h
      simp
    · rw [if_neg hp] at h
      have := findIdx?_lt_length p l (s + 1) i h
      simp only [List.length_cons]
      omega

/-! ## C2: ordered execution of a single iteration -/

/-- C2: for a macro with at least one step and distinct step orders (the
macro invariant), a single-iteration run (`repeat` false) in which no step
fails and no stop is requested executes every step, visiting them in strictly
ascending `order` whatever the stored array order, and resolves with
`success = true` and `stepsExecuted` equal to the number of steps. -/
theorem playMacro_ordered_execution (mac : Macro) (opts : PlayOptions) (env : PlaybackEnv)
    (hne : mac.steps ≠ [])
    (hdist : mac.steps.Pairwise (fun a b => a.order ≠ b.order))
    (hrep : opts.repeatFlag = false)
    (hnf : ∀ i j, env.stepFails i j = none) (hns : ∀ i j, env.stopAt i j = false) :
    ∃ r, playMacro false mac opts env = Except.ok r ∧
      r.success = true ∧ r.stepsExecuted = mac.steps.length ∧ r.iterations = 1 ∧
      r.trace.Perm mac.steps ∧ (r.trace.map MacroStep.order).Chain' (· < ·) := by
  have hempty : mac.steps.isEmpty = false := List.isEmpty_eq_false.mpr hne
  have hpm : playMacro false mac opts env = Except.ok (executePlayback env mac
      opts.repeatFlag (if opts.repeatCount = 0 then 1 else opts.repeatCount)
      opts.suppressErrors) := by
    simp [playMacro, hempty]
  have hperm : (mac.steps.mergeSort (fun a b => decide (a.order ≤ b.order))).Perm mac.steps :=
    List.mergeSort_perm mac.steps _
  have hrun : executePlayback env mac opts.repeatFlag
      (if opts.repeatCount = 0 then 1 else opts.repeatCount) opts.suppressErrors =
      { success := true, stopped := false,
        stepsExecuted := 0 + (mac.steps.mergeSort (fun a b => decide (a.order ≤ b.order))).length,
        iterations := 0 + 1, error := none,
        trace := [] ++ mac.steps.mergeSort (fun a b => decide (a.order ≤ b.order)) } := by
    rw [executePlayback, hrep]
    exact runLoop_noRepeat_noFail env _ _ _ 0 0 [] hnf hns
  refine ⟨_, hpm, ?_⟩
  rw [hrun]
  have hsorted : (mac.steps.mergeSort (fun a b => decide (a.order ≤ b.order))).Pairwise
      (fun a b => a.order ≤ b.order) := by
    have h := @List.sorted_mergeSort MacroStep
      (fun (a b : MacroStep) => decide (a.order ≤ b.order))
      (fun a b c hab hbc => by
        simp only [decide_eq_true_eq] at hab hbc ⊢
        omega)
      (fun a b => by
        simp only [Bool.or_eq_true, decide_eq_true_eq]
        omega)
      mac.steps
    exact h.imp (fun hab => by simpa using hab)
  have hdist' : (mac.steps.mergeSort (fun a b => decide (a.order ≤ b.order))).Pairwise
      (fun a b => a.order ≠ b.order) :=
    (List.Perm.pairwise_iff (fun h => h.symm) hperm).mpr hdist
  have hlt : (mac.steps.mergeSort (fun a b => decide (a.order ≤ b.order))).Pairwise
      (fun a b => a.order < b.order) :=
    (hsorted.and hdist').imp (fun h => lt_of_le_of_ne h.1 h.2)
  refine ⟨rfl, ?_, rfl, ?_, ?_⟩
  · simp [hperm.length_eq]
  · simp only [List.nil_append]
    exact hperm
  · exact (List.pairwise_map.mpr hlt).chain'

/-- C2 witness: a two-step macro stored in reversed order plays both steps in
one successful iteration. -/
theorem playMacro_ordered_execution_witness :
    ∃ r, playMacro false
        { id := "m", name := "n", description := "",
          steps := [{ id := "", order := 1, action := MacroAction.text "b" },
                    { id := "", order := 0, action := MacroAction.text "a" }],
          createdAt := "", updatedAt := "" }
        { speed := 1, repeatFlag := false, repeatCount := 1, suppressErrors := false }
        noFailEnv = Except.ok r ∧
      r.success = true ∧
      r.stepsExecuted = ([{ id := "", order := 1, action := MacroAction.text "b" },
        { id := "", order := 0, action := MacroAction.text "a" }] : List MacroStep).length ∧
      r.iterations = 1 ∧
      r.trace.Perm [{ id := "", order := 1, action := MacroAction.text "b" },
        { id := "", order := 0, action := MacroAction.text "a" }] ∧
      (r.trace.map MacroStep.order).Chain' (· < ·) :=
  playMacro_ordered_execution
    { id := "m", name := "n", description := "",
      steps := [{ id := "", order := 1, action := MacroAction.text "b" },
                { id := "", order := 0, action := MacroAction.text "a" }],
      createdAt := "", updatedAt := "" }
    { speed := 1, repeatFlag := false, repeatCount := 1, suppressErrors := false }
    noFailEnv (by decide) (by decide) rfl (fun _ _ => rfl) (fun _ _ => rfl)

/-! ## C9: playback guards and zero-step storage -/

/-- C9: `playMacro` rejects — before any step runs, as the model returns an
error without consulting the playback loop — both when a session is already
active and when the macro has no steps; while `saveMacro` accepts and stores
a macro whose `steps` list is empty. -/
theorem playMacro_guards (macA macB : Macro) (opts : PlayOptions) (env : PlaybackEnv)
    (macros : List Macro) (m₂ : Macro) (nowStr : String)
    (hBempty : macB.steps = []) (hid : m₂.id ≠ "") (h₂ : m₂.steps = []) :
    playMacro true macA opts env = Except.error "Already playing a macro" ∧
    playMacro false macB opts env = Except.error "Cannot play a macro with no steps" ∧
    ∃ saved macros', saveMacro macros m₂ nowStr = Except.ok (saved, macros') ∧
      saved.steps = [] ∧ saved ∈ macros' := by
  refine ⟨rfl, ?_, ?_⟩
  · have hempty : macB.steps.isEmpty = true := List.isEmpty_iff.mpr hBempty
    simp [playMacro, hempty]
  · simp only [saveMacro, if_neg hid]
    rcases hidx : macros.findIdx? (fun m => decide (m.id = m₂.id)) with _ | i
    · rw [hidx]
      exact ⟨_, _, rfl, h₂, List.mem_append.mpr (Or.inr (List.mem_singleton.mpr rfl))⟩
    · rw [hidx]
      have hlt : i < macros.length := by
        have := findIdx?_lt_length (fun m => decide (m.id = m₂.id)) macros 0 i hidx
        omega
      exact ⟨_, _, rfl, h₂, List.mem_set macros i hlt _⟩

/-- C9 witness: with one-step macro `p`, empty macro `e`: playing `p` while a
session is active fails, playing `e` fails, saving `e` succeeds. -/
theorem playMacro_guards_witness :
    playMacro true
      { id := "p", name := "p", description := "",
        steps := [{ id := "", order := 0, action := MacroAction.delay 1 }],
        createdAt := "", updatedAt := "" }
      { speed := 1, repeatFlag := false, repeatCount := 1, suppressErrors := false }
      noFailEnv = Except.error "Already playing a macro" ∧
    playMacro false
      { id := "e", name := "e", description := "", steps := [], createdAt := "", updatedAt := "" }
      { speed := 1, repeatFlag := false, repeatCount := 1, suppressErrors := false }
      noFailEnv = Except.error "Cannot play a macro with no steps" ∧
    ∃ saved macros', saveMacro []
      { id := "e", name := "e", description := "", steps := [], createdAt := "", updatedAt := "" }
      "2025-01-01" = Except.ok (saved, macros') ∧ saved.steps = [] ∧ saved ∈ macros' :=
  playMacro_guards
    { id := "p", name := "p", description := "",
      steps := [{ id := "", order := 0, action := MacroAction.delay 1 }],
      createdAt := "", updatedAt := "" }
    { id := "e", name := "e", description := "", steps := [], createdAt := "", updatedAt := "" }
    { speed := 1, repeatFlag := false, repeatCount := 1, suppressErrors := false }
    noFailEnv []
    { id := "e", name := "e", description := "", steps := [], createdAt := "", updatedAt := "" }
    "2025-01-01" rfl (by decide) rfl

/-! ## C10: iteration counts of repeat playback -/

/-- A one-step macro used as a concrete playback input. -/
def oneStepMacro : Macro :=
  { id := "m", name := "n", description := "",
    steps := [{ id := "", order := 0, action := MacroAction.delay 1 }],
    createdAt := "", updatedAt := "" }

/-- C10 (counterexample to the claim as stated): with `repeat = true` and
`repeatCount = 0`, one full iteration still executes — the `repeatCount || 1`
defaulting in `playMacro` turns 0 into 1 — which exceeds the requested
`repeatCount` of 0, so "at most repeatCount iterations" fails there. -/
theorem playMacro_iteration_counterexample :
    ∃ r, playMacro false oneStepMacro
        { speed := 1, repeatFlag := true, repeatCount := 0, suppressErrors := false }
        noFailEnv = Except.ok r ∧
      r.iterations = 1 ∧ ¬((r.iterations : Int) ≤ 0) := by
  have hsteps : runSteps noFailEnv false 1 oneStepMacro.steps 0 0 [] =
      IterOutcome.completed 1 oneStepMacro.steps := rfl
  have hloop : runLoop noFailEnv oneStepMacro.steps true 1 false 0 0 [] =
      { success := true, stopped := false, stepsExecuted := 1, iterations := 1,
        error := none, trace := oneStepMacro.steps } := by
    rw [runLoop, hsteps]
    dsimp only
    rw [dif_neg (by rintro ⟨-, h, -⟩; omega)]
  have hexec : executePlayback noFailEnv oneStepMacro true 1 false =
      { success := true, stopped := false, stepsExecuted := 1, iterations := 1,
        error := none, trace := oneStepMacro.steps } := by
    rw [executePlayback]
    rw [show oneStepMacro.steps =
      [{ id := "", order := 0, action := MacroAction.delay 1 }] from rfl]
    rw [List.mergeSort_singleton]
    exact hloop
  have hpm : playMacro false oneStepMacro
      { speed := 1, repeatFlag := true, repeatCount := 0, suppressErrors := false }
      noFailEnv = Except.ok (executePlayback noFailEnv oneStepMacro true 1 false) := rfl
  refine ⟨{ success := true, stopped := false, stepsExecuted := 1, iterations := 1,
            error := none, trace := oneStepMacro.steps }, ?_, rfl, by decide⟩
  rw [hpm, hexec]

/-- C10 (amended): when `playMacro` is called with `repeat` false, exactly one
iteration executes regardless of `repeatCount`; when `repeat` is true, at most
`max 1 repeatCount` iterations execute — a `repeatCount` of 0 is defaulted to
1 by `options.repeatCount || 1`, so one iteration (not zero) runs there. -/
theorem playMacro_iteration_bound (mac : Macro) (opts : PlayOptions) (env : PlaybackEnv)
    (hne : mac.steps ≠ []) :
    ∃ r, playMacro false mac opts env = Except.ok r ∧
      (opts.repeatFlag = false → r.iterations = 1) ∧
      (opts.repeatFlag = true →
        r.iterations ≤ max 1 (if opts.repeatCount = 0 then 1 else opts.repeatCount).toNat) := by
  have hempty : mac.steps.isEmpty = false := List.isEmpty_eq_false.mpr hne
  have hpm : playMacro false mac opts env = Except.ok (executePlayback env mac
      opts.repeatFlag (if opts.repeatCount = 0 then 1 else opts.repeatCount)
      opts.suppressErrors) := by
    simp [playMacro, hempty]
  refine ⟨_, hpm, ?_, ?_⟩
  · intro hrf
    rw [executePlayback, hrf]
    exact runLoop_noRepeat_iterations env _ _ _ 0 0 []
  · intro _
    rw [executePlayback]
    have h := runLoop_iterations_le env
      (mac.steps.mergeSort (fun a b => decide (a.order ≤ b.order)))
      opts.repeatFlag (if opts.repeatCount = 0 then 1 else opts.repeatCount)
      opts.suppressErrors
      ((if opts.repeatCount = 0 then 1 else opts.repeatCount) - (0 : Nat)).toNat 0 0 []
      (by omega)
    simpa using h

/-- C10 witness: a one-step macro with `repeat = true`, `repeatCount = 3`
executes at most `max 1 3 = 3` iterations. -/
theorem playMacro_iteration_bound_witness :
    ∃ r, playMacro false oneStepMacro
        { speed := 1, repeatFlag := true, repeatCount := 3, suppressErrors := false }
        noFailEnv = Except.ok r ∧
      r.iterations ≤ max 1 ((3 : Int)).toNat := by
  obtain ⟨r, h1, -, h3⟩ := playMacro_iteration_bound oneStepMacro
    { speed := 1, repeatFlag := true, repeatCount := 3, suppressErrors := false }
    noFailEnv (by decide)
  refine ⟨r, h1, ?_⟩
  simpa using h3 rfl
